import Mathlib

/-!
Verification of the ObserVan route-risk core against its natural-language
specification.  The definitions below are a shallow embedding of the
JavaScript source files `src/routePlanner.js` and the `CrimeData` module
(`data.js` / CSV variant): JS numbers that can be NaN are modelled as
`Option ℚ` (`none` = NaN), JS objects keyed by strings as association
lists in insertion order, and the unbounded `while` loop of the
hour-window summation as a fuel-indexed recursion where `none` marks
divergence.  Definitions come first, then the theorems settling the
claims, each preceded by the helper lemmas it needs.
-/

set_option maxRecDepth 100000

namespace ObserVan


/-! ### JS number model

The coordinate pipeline can receive NaN.  IEEE semantics relevant to the
source: arithmetic on NaN yields NaN, and `NaN < x` is false for every x.
`none` stands for NaN; all remaining values are exact rationals (the
source only adds, subtracts and multiplies decimal literals, so no
rounding is lost). -/
abbrev ENum : Type := Option ℚ

def eadd : ENum → ENum → ENum
  | some a, some b => some (a + b)
  | _, _ => none

def esub : ENum → ENum → ENum
  | some a, some b => some (a - b)
  | _, _ => none

def emul : ENum → ENum → ENum
  | some a, some b => some (a * b)
  | _, _ => none

/-- Point in latitude/longitude space, as the `{lat, lng}` objects of the
source. -/
structure LatLng where
  lat : ENum
  lng : ENum
deriving DecidableEq

/-! ### Categorizer (`CrimeData.categorizeCrime`) -/
/-- The seven fixed crime categories. -/
inductive Cat where
  | commercial
  | residential
  | theft
  | vehicle
  | person
  | mischief
  | other
deriving DecidableEq

/-- Prefix test on character lists (kernel-friendly replacement for the
built-in string prefix test). -/
def listPrefix : List Char → List Char → Bool
  | [], _ => true
  | _ :: _, [] => false
  | p :: ps, c :: cs => p = c && listPrefix ps cs

/-- JS `s.startsWith(pre)`. -/
def strStarts (s pre : String) : Bool :=
  listPrefix pre.data s.data

/-- Substring test on character lists; embeds JS `String.prototype.includes`. -/
def listContains (pat : List Char) : List Char → Bool
  | [] => pat.isEmpty
  | c :: rest => listPrefix pat (c :: rest) || listContains pat rest

/-- JS `s.includes(pat)`. -/
def strContains (s pat : String) : Bool :=
  listContains pat.data s.data

/-- Embeds `CrimeData.categorizeCrime(vpdType)`.  The argument is
`Option String` because the field read `record.TYPE` can be undefined;
JS `!vpdType` is true exactly for undefined and the empty string here. -/
def categorizeCrime : Option String → Cat
  | none => Cat.other
  | some t =>
    if t = "" then Cat.other
    else if strStarts t "Break and Enter Commercial" then Cat.commercial
    else if strStarts t "Break and Enter Residential" then Cat.residential
    else if strStarts t "Theft of Vehicle" || strStarts t "Theft of Bicycle"
            || t = "Other Theft" then Cat.theft
    else if strStarts t "Theft from Vehicle" then Cat.vehicle
    else if strStarts t "Homicide" || strStarts t "Assault"
            || strContains t "Violence" then Cat.person
    else if strContains t "Mischief" then Cat.mischief
    else Cat.other

/-- Ordered rule list written from the spec's words (§4.1): a fixed,
ordered set of (predicate, category) pairs, first match wins. -/
def specRules : List ((String → Bool) × Cat) :=
  [ (fun t => strStarts t "Break and Enter Commercial", Cat.commercial),
    (fun t => strStarts t "Break and Enter Residential", Cat.residential),
    (fun t => strStarts t "Theft of Vehicle" || strStarts t "Theft of Bicycle"
              || t = "Other Theft", Cat.theft),
    (fun t => strStarts t "Theft from Vehicle", Cat.vehicle),
    (fun t => strStarts t "Homicide" || strStarts t "Assault"
              || strContains t "Violence", Cat.person),
    (fun t => strContains t "Mischief", Cat.mischief) ]

/-- First matching rule wins; no rule matching falls through to `other`. -/
def firstMatch (s : String) : List ((String → Bool) × Cat) → Cat
  | [] => Cat.other
  | r :: rest => if r.1 s then r.2 else firstMatch s rest

/-- Categorizer as the spec states it: empty/absent label maps to `other`,
otherwise the ordered rule list is scanned first-match-wins. -/
def specCategorize : Option String → Cat
  | none => Cat.other
  | some t => firstMatch t specRules

/-! ### Hour-window summation loop (`sumIncidentsForNeighborhood`, lines 52-59)

The source loop is `while (true) { sum += hc[h] || 0; if (h === endHour)
break; h = (h + 1) % 24; }`.  `loopSum` is its fuel-indexed embedding:
`none` means the fuel ran out, and with fuel 48 that happens exactly when
the JS loop diverges (a terminating run takes at most 25 iterations: one
at the start hour plus a full wrap of the 24 residues). -/
abbrev HourHist : Type := List (ℕ × ℕ)

/-- Reads `hourCounts[h] || 0` from a histogram object. -/
def histGet (hh : HourHist) (h : ℕ) : ℕ :=
  match hh.find? (fun e => e.1 == h) with
  | some e => e.2
  | none => 0

/-- Fuel-indexed embedding of the wrap-around summation loop. -/
def loopSum (g : ℕ → ℕ) (endH : ℕ) : ℕ → ℕ → Option ℕ
  | _, 0 => none
  | h, fuel + 1 =>
    if h = endH then some (g h)
    else (loopSum g endH ((h + 1) % 24) fuel).map (fun s => g h + s)

/-- Inclusive list of hours `[h, h+1, ..., h+k]` (no wrapping). -/
def hoursFrom (h : ℕ) : ℕ → List ℕ
  | 0 => [h]
  | k + 1 => h :: hoursFrom (h + 1) k

/-- Hours covered by an inclusive window walked forward from `sh` to `eh`,
wrapping modulo 24 when `eh < sh` — the range the spec describes. -/
def hourRange (sh eh : ℕ) : List ℕ :=
  if sh ≤ eh then hoursFrom sh (eh - sh)
  else hoursFrom sh (23 - sh) ++ hoursFrom 0 eh

/-- Total histogram mass inside an inclusive, possibly wrapping window. -/
def windowSum (g : ℕ → ℕ) (sh eh : ℕ) : ℕ :=
  ((hourRange sh eh).map g).sum

/-! ### Aggregates and the CrimeData store (`part_005`)

A per-region aggregate object.  `processData` creates objects with the
eight numeric count fields; the sample-data fallback additionally stores a
`break` bucket (field `brk` here, since the CSV-era categorizer never
produces it `brk` defaults to 0 in `processData` output).  `hourCounts`
is carried only by the hour-aware aggregate builder that the deployed
data module provides (see `processDataWithHours` below); the aggregates
built by the `processData` in the snapshot leave it absent (`none`). -/
structure Agg where
  all : ℕ
  commercial : ℕ
  residential : ℕ
  theft : ℕ
  vehicle : ℕ
  person : ℕ
  mischief : ℕ
  other : ℕ
  brk : ℕ
  hourCounts : Option HourHist
deriving DecidableEq

/-- Freshly initialized aggregate, as in `processData`'s object literal. -/
def emptyAgg : Agg := ⟨0, 0, 0, 0, 0, 0, 0, 0, 0, none⟩

/-- Dynamic field read `agg[crimeType] || 0` of the source. -/
def categoryCount (g : Agg) : String → ℕ
  | "all" => g.all
  | "commercial" => g.commercial
  | "residential" => g.residential
  | "theft" => g.theft
  | "vehicle" => g.vehicle
  | "person" => g.person
  | "mischief" => g.mischief
  | "other" => g.other
  | "break" => g.brk
  | _ => 0

/-- Increment of the bucket selected by the categorizer
(`data[neighborhood][type]++`). -/
def bumpCat (g : Agg) : Cat → Agg
  | Cat.commercial => { g with commercial := g.commercial + 1 }
  | Cat.residential => { g with residential := g.residential + 1 }
  | Cat.theft => { g with theft := g.theft + 1 }
  | Cat.vehicle => { g with vehicle := g.vehicle + 1 }
  | Cat.person => { g with person := g.person + 1 }
  | Cat.mischief => { g with mischief := g.mischief + 1 }
  | Cat.other => { g with other := g.other + 1 }

/-- One incident record as read from the parsed CSV row: the fields the
aggregators consult, each possibly absent. -/
structure CrimeRec where
  nbhd : Option String
  typ : Option String
  hour : Option ℕ
deriving DecidableEq

/-- Record skipped by the aggregator: `!neighborhood || neighborhood ===
"NULL"` (JS falsy covers the absent field and the empty string). -/
def skipRec (r : CrimeRec) : Bool :=
  match r.nbhd with
  | none => true
  | some s => s = "" || s = "NULL"

/-- Neighborhood map: a JS object in insertion order. -/
abbrev NbMap : Type := List (String × Agg)

/-- Object lookup `m[k]` (an absent key reads as undefined / `none`). -/
def nbFind (m : NbMap) (k : String) : Option Agg :=
  (m.find? (fun e => e.1 == k)).map (fun e => e.2)

/-- Object update: transform the existing entry in place, or append the
transformed initial value, as JS property assignment does. -/
def upsert (m : NbMap) (k : String) (f : Agg → Agg) (d : Agg) : NbMap :=
  match nbFind m k with
  | some _ => m.map (fun e => if e.1 == k then (e.1, f e.2) else e)
  | none => m ++ [(k, f d)]

/-- Store `crimeDataByYear`: year string → neighborhood map. -/
abbrev Store : Type := List (String × NbMap)

def storeFind (s : Store) (year : String) : Option NbMap :=
  (s.find? (fun e => e.1 == year)).map (fun e => e.2)

/-- Result shape of `CrimeData.getNeighborhoodData` restricted to the
fields the route planner reads: `incidents` and (via the object spread
`...neighborhoodData`) `hourCounts`. -/
structure NbData where
  incidents : ℕ
  hourCounts : Option HourHist
deriving DecidableEq

/-- Embeds `CrimeData.getNeighborhoodData(name, year, crimeType)` of
`part_005`: a missing year or region yields the zero-filled object (which
carries no `hourCounts`), otherwise `incidents` is the requested
category's count and the aggregate's fields are spread into the result. -/
def getNeighborhoodData (s : Store) (nb year crimeType : String) : NbData :=
  match (storeFind s year).bind (fun m => nbFind m nb) with
  | none => ⟨0, none⟩
  | some g => ⟨categoryCount g crimeType, g.hourCounts⟩

/-- Sample-data table of `CrimeData.loadSampleData` (name, `all`, `theft`,
`break`, `vehicle`, `person`); `commercial`, `residential`, `mischief` and
`other` are stored as 0. -/
def sampleRows : List (String × ℕ × ℕ × ℕ × ℕ × ℕ) :=
  [ ("Central Business District", 1250, 520, 180, 380, 170),
    ("West End", 680, 310, 95, 215, 60),
    ("Strathcona", 890, 420, 135, 265, 70),
    ("Grandview-Woodland", 520, 240, 85, 155, 40),
    ("Mount Pleasant", 440, 210, 70, 130, 30),
    ("Fairview", 380, 175, 60, 120, 25),
    ("Kitsilano", 340, 160, 55, 105, 20),
    ("Hastings-Sunrise", 460, 215, 75, 140, 30),
    ("Renfrew-Collingwood", 390, 180, 65, 120, 25),
    ("Kensington-Cedar Cottage", 410, 190, 68, 125, 27),
    ("Riley Park", 280, 130, 45, 85, 20),
    ("Sunset", 310, 145, 50, 95, 20),
    ("Victoria-Fraserview", 260, 120, 42, 80, 18),
    ("Killarney", 220, 105, 35, 65, 15),
    ("Oakridge", 190, 90, 30, 58, 12),
    ("Marpole", 330, 155, 53, 100, 22),
    ("Dunbar-Southlands", 165, 80, 27, 48, 10),
    ("Kerrisdale", 145, 70, 23, 42, 10),
    ("Arbutus Ridge", 135, 65, 22, 38, 10),
    ("Shaughnessy", 120, 58, 20, 34, 8),
    ("West Point Grey", 155, 75, 25, 45, 10),
    ("South Cambie", 175, 85, 28, 52, 10),
    ("Stanley Park", 85, 45, 12, 22, 6),
    ("Musqueam", 45, 22, 8, 12, 3) ]

/-- Per-region aggregate object built by `loadSampleData`: the sampled
counts plus explicit zeros for `commercial`, `residential`, `mischief`
and `other`. -/
def sampleAgg (row : String × ℕ × ℕ × ℕ × ℕ × ℕ) : String × Agg :=
  (row.1, ⟨row.2.1, 0, 0, row.2.2.1, row.2.2.2.2.1, row.2.2.2.2.2, 0, 0, row.2.2.2.1, none⟩)

/-- Embeds `CrimeData.loadSampleData()`: the same sample map is assigned
to each of the six years. -/
def loadSampleData : Store :=
  ["2020", "2021", "2022", "2023", "2024", "2025"].map
    (fun y => (y, sampleRows.map sampleAgg))

/-- Increment of one histogram slot (`hourCounts[h] = (hourCounts[h] || 0) + 1`). -/
def histBump (hh : HourHist) (h : ℕ) : HourHist :=
  match hh.find? (fun e => e.1 == h) with
  | some _ => hh.map (fun e => if e.1 == h then (e.1, e.2 + 1) else e)
  | none => hh ++ [(h, 1)]

/-- Initial aggregate of the hour-aware builder: all counts zero and an
empty (but present) hour histogram. -/
def emptyAggH : Agg := { emptyAgg with hourCounts := some [] }

/-- Count step shared by both aggregate builders: `data[nb].all++` followed
by the categorized bucket increment. -/
def aggStep (r : CrimeRec) (g : Agg) : Agg :=
  bumpCat { g with all := g.all + 1 } (categorizeCrime r.typ)

/-- Modelled from the spec: the deployed data module's aggregate builder
also records an hour histogram on every `RegionAggregate` (spec §3 and
§4.2: "if the record carries a valid hour (integer 0-23), increments that
hour's histogram slot"); that builder is absent from the snapshot (only
its consumers `routePlanner.js` and `gemini.js` remain), so its histogram
bookkeeping is reconstructed here on top of the snapshot's count step. -/
def aggStepH (r : CrimeRec) (g : Agg) : Agg :=
  match r.hour with
  | some h =>
    if h ≤ 23 then
      { aggStep r g with
        hourCounts := some (histBump ((aggStep r g).hourCounts.getD []) h) }
    else aggStep r g
  | none => aggStep r g

/-- Single-record step of `CrimeData.processData`: skip invalid regions,
else increment `all` and the categorized bucket.  (The source's `else`
branch adding to `other` when the categorizer returns a falsy value is
dead code: `categorizeCrime` always returns a non-empty category name.) -/
def processRecord (m : NbMap) (r : CrimeRec) : NbMap :=
  if skipRec r then m
  else
    match r.nbhd with
    | none => m
    | some nb => upsert m nb (aggStep r) emptyAgg

/-- Embeds `CrimeData.processData(year, records)` (the per-year map it
stores into `crimeDataByYear`). -/
def processData (records : List CrimeRec) : NbMap :=
  records.foldl processRecord []

/-- Modelled from the spec: per-record step of the hour-aware aggregate
builder missing from the snapshot — identical to `processRecord` except
that the histogram-carrying `aggStepH` is applied. -/
def processRecordH (m : NbMap) (r : CrimeRec) : NbMap :=
  if skipRec r then m
  else
    match r.nbhd with
    | none => m
    | some nb => upsert m nb (aggStepH r) emptyAggH

/-- Modelled from the spec: the hour-aware aggregate builder (spec §4.2),
producing per-region aggregates that always carry an `hourCounts`
histogram. -/
def processDataWithHours (records : List CrimeRec) : NbMap :=
  records.foldl processRecordH []

/-- Store in which every stored aggregate carries an hour histogram — the
shape the spec's data model prescribes for every `RegionAggregate`. -/
def hourAware (s : Store) : Prop :=
  ∀ e ∈ s, ∀ e2 ∈ e.2, (e2.2 : Agg).hourCounts.isSome

instance (s : Store) : Decidable (hourAware s) := by
  unfold hourAware
  infer_instance

/-- Embeds `RoutePlanner.sumIncidentsForNeighborhood(nb, year, crimeType,
startHour, endHour)`.  `none` marks divergence of the summation loop (the
`!nd` guard of the source is dead with this data module, which always
returns an object). -/
def sumIncidentsForNeighborhood (s : Store) (nb year crimeType : String)
    (startHour endHour : Option ℕ) : Option ℕ :=
  let nd := getNeighborhoodData s nb year crimeType
  match nd.hourCounts with
  | none => some 0
  | some hh =>
    match startHour, endHour with
    | some sh, some eh => loopSum (histGet hh) eh sh 48
    | _, _ => some nd.incidents

/-! ### Route planner (`src/routePlanner.js`)

The module's ambient globals (`CrimeData.neighborhoodCoordinates` and
`CrimeData.crimeDataByYear`, plus `CONFIG.DEFAULT_YEAR`) become explicit
parameters `table`, `store` and `defaultYear`.  Map drawing (the Leaflet
polyline and the returned `layer` handle) is a rendering side effect and
is not modelled; the polyline's `color` is kept as a result field. -/
abbrev CoordTable : Type := List (String × ℚ × ℚ)

/-- Static region-centroid table `CrimeData.neighborhoodCoordinates`, in
its literal (= enumeration) order. -/
def neighborhoodCoordinates : CoordTable :=
  [ ("Central Business District", 49.2827, -123.1207),
    ("West End", 49.2850, -123.1350),
    ("Strathcona", 49.2757, -123.0958),
    ("Grandview-Woodland", 49.2739, -123.0693),
    ("Mount Pleasant", 49.2641, -123.1003),
    ("Fairview", 49.2655, -123.1289),
    ("Kitsilano", 49.2660, -123.1563),
    ("Hastings-Sunrise", 49.2812, -123.0452),
    ("Renfrew-Collingwood", 49.2394, -123.0348),
    ("Kensington-Cedar Cottage", 49.2506, -123.0742),
    ("Riley Park", 49.2446, -123.1030),
    ("Sunset", 49.2196, -123.0691),
    ("Victoria-Fraserview", 49.2108, -123.0576),
    ("Killarney", 49.2257, -123.0388),
    ("Oakridge", 49.2287, -123.1167),
    ("Marpole", 49.2103, -123.1293),
    ("Dunbar-Southlands", 49.2346, -123.1852),
    ("Kerrisdale", 49.2339, -123.1575),
    ("Arbutus Ridge", 49.2496, -123.1545),
    ("Shaughnessy", 49.2415, -123.1397),
    ("West Point Grey", 49.2675, -123.1978),
    ("South Cambie", 49.2431, -123.1203),
    ("Stanley Park", 49.3017, -123.1442),
    ("Musqueam", 49.2089, -123.2064) ]

/-- Linear interpolation `a + (b - a) * t` of one coordinate. -/
def interp (a b : ENum) (t : ℚ) : ENum :=
  eadd a (emul (esub b a) (some t))

/-- Embeds `RoutePlanner.sampleLine(a, b, samples)`: the `n + 1` points at
parameters `i / n`.  (`planRoute` only calls it with `n ≥ 1`; for `n = 0`
JS would produce `0 / 0 = NaN` at the first point whereas `ℚ` division
yields 0 — that call never occurs in the embedded pipeline.) -/
def sampleLine (a b : LatLng) (n : ℕ) : List LatLng :=
  (List.range (n + 1)).map
    (fun i => ⟨interp a.lat b.lat ((i : ℚ) / (n : ℚ)), interp a.lng b.lng ((i : ℚ) / (n : ℚ))⟩)

/-- Squared Euclidean distance of the source,
`(ny - lat) * (ny - lat) + (nx - lng) * (nx - lng)`, in the NaN-aware
number model. -/
def sqDistE (p : LatLng) (c : ℚ × ℚ) : ENum :=
  eadd (emul (esub (some c.1) p.lat) (esub (some c.1) p.lat))
       (emul (esub (some c.2) p.lng) (esub (some c.2) p.lng))

/-- One iteration of the `getNearestNeighborhood` scan.  The accumulator is
`none` while `best` is still null with `bestDist = Infinity`; a NaN
distance never passes `d < bestDist`. -/
def nearStep (p : LatLng) (acc : Option (String × ℚ)) (e : String × ℚ × ℚ) :
    Option (String × ℚ) :=
  match sqDistE p e.2 with
  | none => acc
  | some d =>
    match acc with
    | none => some (e.1, d)
    | some be => if d < be.2 then some (e.1, d) else acc

/-- Embeds `RoutePlanner.getNearestNeighborhood(point)` over an explicit
centroid table. -/
def getNearestNeighborhood (table : CoordTable) (p : LatLng) : Option String :=
  (table.foldl (nearStep p) none).map (fun e => e.1)

/-- Squared Euclidean distance between plain rational points (the
NaN-free case). -/
def sqDist (q c : ℚ × ℚ) : ℚ :=
  (c.1 - q.1) * (c.1 - q.1) + (c.2 - q.2) * (c.2 - q.2)

/-- Minimum of a list of rationals (`none` on the empty list). -/
def listMinQ : List ℚ → Option ℚ
  | [] => none
  | d :: ds =>
    some (match listMinQ ds with
          | none => d
          | some m => min d m)

/-- Nearest region as the spec words it: the entry whose centroid attains
the minimal squared Euclidean distance over the entire table, ties going
to the earliest enumerated entry. -/
def specNearest (table : CoordTable) (q : ℚ × ℚ) : Option String :=
  match listMinQ (table.map (fun e => sqDist q e.2)) with
  | none => none
  | some m => (table.find? (fun e => sqDist q e.2 == m)).map (fun e => e.1)

/-- JS `Math.round(t / d)` for naturals with `d > 0` (round half up). -/
def jsRound (t d : ℕ) : ℕ :=
  (2 * t + d) / (2 * d)

/-- Embeds `RoutePlanner.scoreToColor(score)`. -/
def scoreToColor (s : ℕ) : String :=
  if s ≤ 50 then "#2b83ba"
  else if s ≤ 150 then "#ffffbf"
  else if s ≤ 300 then "#fdae61"
  else "#d7191c"

/-- Risk bands of the spec's fixed 4-tier classification (low to high). -/
inductive Tier where
  | low
  | moderate
  | high
  | severe
deriving DecidableEq

/-- Tier thresholds as the spec states them: `≤ 50`, `≤ 150`, `≤ 300`,
`> 300`. -/
def specTier (s : ℕ) : Tier :=
  if s ≤ 50 then Tier.low
  else if s ≤ 150 then Tier.moderate
  else if s ≤ 300 then Tier.high
  else Tier.severe

/-- Color assigned to each band (first to fourth threshold bucket). -/
def tierColor : Tier → String
  | Tier.low => "#2b83ba"
  | Tier.moderate => "#ffffbf"
  | Tier.high => "#fdae61"
  | Tier.severe => "#d7191c"

/-- Set insertion step for the touched-region set (`seen.add(nb)` keeps
first-insertion order; a null nearest region is not added). -/
def addTouched (table : CoordTable) (acc : List String) (p : LatLng) : List String :=
  match getNearestNeighborhood table p with
  | some nb => if nb ∈ acc then acc else acc ++ [nb]
  | none => acc

/-- Distinct regions touched by the sample points, in first-touch order
(`Array.from(seen)` of the source). -/
def touchedRegions (table : CoordTable) (pts : List LatLng) : List String :=
  pts.foldl (addTouched table) []

/-- Sequential per-region summation building the `perNb` object in region
order; `none` if any region's summation diverges. -/
def perNbCounts (s : Store) (year crimeType : String)
    (startHour endHour : Option ℕ) : List String → Option (List (String × ℕ))
  | [] => some []
  | nb :: rest =>
    match sumIncidentsForNeighborhood s nb year crimeType startHour endHour with
    | none => none
    | some c => (perNbCounts s year crimeType startHour endHour rest).map
        (fun per => (nb, c) :: per)

/-- Embeds `RoutePlanner.incidentsAlongRoute(samplePoints, ...)`: the
total, the distinct touched regions, and the per-region counts (`perNb`
as an insertion-ordered object).  `none` marks divergence of the
hour-window loop for some region. -/
def incidentsAlongRoute (table : CoordTable) (s : Store) (pts : List LatLng)
    (year crimeType : String) (startHour endHour : Option ℕ) :
    Option (ℕ × List String × List (String × ℕ)) :=
  let nbs := touchedRegions table pts
  match perNbCounts s year crimeType startHour endHour nbs with
  | none => none
  | some per => some (per.foldl (fun t e => t + e.2) 0, nbs, per)

/-- Options object of `planRoute` (`opts`): each field may be absent. -/
structure RouteOpts where
  year : Option String
  crimeType : Option String
  startHour : Option ℕ
  endHour : Option ℕ
  samples : Option ℕ
deriving DecidableEq

/-- JS `opts.year || CONFIG.DEFAULT_YEAR` (the empty string is falsy). -/
def resolveYear (o : RouteOpts) (defaultYear : String) : String :=
  match o.year with
  | some y => if y = "" then defaultYear else y
  | none => defaultYear

/-- JS `opts.crimeType || 'all'`. -/
def resolveCrimeType (o : RouteOpts) : String :=
  match o.crimeType with
  | some c => if c = "" then "all" else c
  | none => "all"

/-- JS `opts.samples || this.DEFAULT_SAMPLES` (0 is falsy). -/
def resolveSamples (o : RouteOpts) : ℕ :=
  match o.samples with
  | some k => if k = 0 then 40 else k
  | none => 40

/-- Stable insertion (descending by count) modelling the comparator
`(a, b) => b.count - a.count` under JS's stable `Array.prototype.sort`. -/
def insertDesc (a : String × ℕ) : List (String × ℕ) → List (String × ℕ)
  | [] => [a]
  | b :: rest => if b.2 ≤ a.2 then a :: b :: rest else b :: insertDesc a rest

/-- Stable descending sort of the per-region counts. -/
def sortDesc (l : List (String × ℕ)) : List (String × ℕ) :=
  l.foldr insertDesc []

/-- Detour waypoint of the alternative-route probe: the straight line's
midpoint shifted by `+0.01` latitude. -/
def altWaypoint (start dest : LatLng) : LatLng :=
  ⟨eadd (eadd start.lat (emul (esub dest.lat start.lat) (some (1/2)))) (some (1/100)),
   eadd start.lng (emul (esub dest.lng start.lng) (some (1/2)))⟩

/-- Sample points of the two-segment alternative route (both segments use
the default 40 samples). -/
def altSamples (start dest : LatLng) : List LatLng :=
  sampleLine start (altWaypoint start dest) 40 ++ sampleLine (altWaypoint start dest) dest 40

/-- Result object of `planRoute` (the `layer` handle is the unmodelled map
drawing; `color` is the polyline color derived from the score). -/
structure RouteResult where
  total : ℕ
  score : ℕ
  color : String
  worst : List (String × ℕ)
  neighborhoods : List String
  alternatives : List (ℕ × LatLng)
deriving DecidableEq

/-- Embeds `RoutePlanner.planRoute(start, dest, opts)`.  `none` marks
divergence of the hour-window summation loop. -/
def planRoute (table : CoordTable) (s : Store) (start dest : LatLng)
    (o : RouteOpts) (defaultYear : String) : Option RouteResult :=
  let year := resolveYear o defaultYear
  let ct := resolveCrimeType o
  match incidentsAlongRoute table s (sampleLine start dest (resolveSamples o)) year ct
      o.startHour o.endHour with
  | none => none
  | some res =>
    let score := jsRound res.1 (max res.2.1.length 1)
    let worst := (sortDesc res.2.2).take 3
    if 100 < score then
      match incidentsAlongRoute table s (altSamples start dest) year ct
          o.startHour o.endHour with
      | none => none
      | some altRes =>
        some ⟨res.1, score, scoreToColor score, worst, res.2.1,
          if altRes.1 < res.1 then [(altRes.1, altWaypoint start dest)] else []⟩
    else
      some ⟨res.1, score, scoreToColor score, worst, res.2.1, []⟩

/-- Challenger step: the current entry survives unless the best of the
later entries is strictly closer (so the earlier entry wins ties). -/
def someBetter (cur : String × ℚ) : Option (String × ℚ) → Option (String × ℚ)
  | none => some cur
  | some be => if be.2 < cur.2 then some be else some cur

/-- First-wins running best over a table, recursively from the left. -/
def nearestAux (q : ℚ × ℚ) : CoordTable → Option (String × ℚ)
  | [] => none
  | e :: rest => someBetter (e.1, sqDist q e.2) (nearestAux q rest)

/-- Merge of an accumulated best with the best of a suffix (the
accumulated best wins ties). -/
def combineBest (acc r : Option (String × ℚ)) : Option (String × ℚ) :=
  match acc, r with
  | none, r => r
  | some b, none => some b
  | some b, some r => if r.2 < b.2 then some r else some b

example : categorizeCrime (some "Theft of Bicycle under 5000") = Cat.theft := by decide

example : categorizeCrime (some "Other Theft") = Cat.theft := by decide

example : categorizeCrime (some "Theft from Vehicle") = Cat.vehicle := by decide

example : categorizeCrime (some "Mischief under 5000") = Cat.mischief := by decide

example : categorizeCrime (some "") = Cat.other := by decide

example : categorizeCrime none = Cat.other := by decide

example : windowSum (histGet [(22,1),(23,1),(0,1),(1,1),(2,1),(3,1),(12,5)]) 22 3 = 6 := by decide

example : loopSum (histGet [(22,1),(23,1),(0,1),(1,1),(2,1),(3,1),(12,5)]) 3 22 48 = some 6 := by decide

/-- Straight-shot segment of the loop: as long as the walk stays strictly
below 24 and ends exactly at `h + k`, the loop sums the inclusive block. -/
theorem loopSum_no_wrap (g : ℕ → ℕ) :
    ∀ (k h e fuel : ℕ), h + k = e → e ≤ 23 → k < fuel →
      loopSum g e h fuel = some ((hoursFrom h k).map g).sum := by
  intro k
  induction k with
  | zero =>
    intro h e fuel he _ hfuel
    cases fuel with
    | zero => omega
    | succ fuel =>
      have : h = e := by omega
      simp [loopSum, this, hoursFrom]
  | succ k ih =>
    intro h e fuel he hle hfuel
    cases fuel with
    | zero => omega
    | succ fuel =>
      have hne : h ≠ e := by omega
      have hmod : (h + 1) % 24 = h + 1 := Nat.mod_eq_of_lt (by omega)
      have := ih (h + 1) e fuel (by omega) (by omega) (by omega)
      simp [loopSum, if_neg hne, hmod, this, hoursFrom]

/-- Wrapping run of the loop: walking upward from `s` to 23 and then from 0
to `eh < s` sums both blocks. -/
theorem loopSum_wrap (g : ℕ → ℕ) :
    ∀ (j s eh fuel : ℕ), s + j = 23 → eh < s → j + eh + 2 ≤ fuel →
      loopSum g eh s fuel =
        some (((hoursFrom s j).map g).sum + ((hoursFrom 0 eh).map g).sum) := by
  intro j
  induction j with
  | zero =>
    intro s eh fuel hs heh hfuel
    cases fuel with
    | zero => omega
    | succ fuel =>
      have hne : s ≠ eh := by omega
      have hmod : (s + 1) % 24 = 0 := by omega
      have hnw := loopSum_no_wrap g eh 0 eh fuel (by omega) (by omega) (by omega)
      simp [loopSum, if_neg hne, hmod, hnw, hoursFrom]
  | succ j ih =>
    intro s eh fuel hs heh hfuel
    cases fuel with
    | zero => omega
    | succ fuel =>
      have hne : s ≠ eh := by omega
      have hmod : (s + 1) % 24 = s + 1 := Nat.mod_eq_of_lt (by omega)
      have := ih (s + 1) eh fuel (by omega) (by omega) (by omega)
      simp [loopSum, if_neg hne, hmod, this, hoursFrom, Nat.add_assoc]

/-- Window summation characterized over all valid hour bounds. -/
theorem loopSum_eq_windowSum (g : ℕ → ℕ) (sh eh : ℕ)
    (hsh : sh ≤ 23) (heh : eh ≤ 23) (fuel : ℕ) (hfuel : 24 ≤ fuel) :
    loopSum g eh sh fuel = some (windowSum g sh eh) := by
  unfold windowSum hourRange
  by_cases hle : sh ≤ eh
  · rw [if_pos hle]
    exact loopSum_no_wrap g (eh - sh) sh eh fuel (by omega) heh (by omega)
  · rw [if_neg hle]
    rw [loopSum_wrap g (23 - sh) sh eh fuel (by omega) (by omega) (by omega)]
    simp

/-- Divergence of the loop when the end hour lies outside the walk: the
walk stays in `[0, 23]`, so an end hour `≥ 24` is never hit. -/
theorem loopSum_diverges (g : ℕ → ℕ) (endH : ℕ) (hend : 24 ≤ endH) :
    ∀ (fuel h : ℕ), h ≤ 23 → loopSum g endH h fuel = none := by
  intro fuel
  induction fuel with
  | zero => intro h _; rfl
  | succ fuel ih =>
    intro h hh
    have hne : h ≠ endH := by omega
    have := ih ((h + 1) % 24) (by omega)
    simp [loopSum, if_neg hne, this]

example : (getNeighborhoodData loadSampleData "Central Business District" "2024" "all").incidents = 1250 := by decide

example : (getNeighborhoodData loadSampleData "Central Business District" "2024" "break").incidents = 180 := by decide

/-! ### Claim C3: the categorizer equals the spec's ordered rule list -/
/-- Claim C3: `categorizeCrime` is total — every input (absent label
included) yields exactly one of the seven categories, which Lean's types
make structural — and agrees with the spec's fixed ordered rule list
(first match wins) on every input string. -/
theorem categorizeCrime_eq_specCategorize :
    ∀ o : Option String, categorizeCrime o = specCategorize o := by
  intro o
  cases o with
  | none => rfl
  | some t =>
    by_cases h : t = ""
    · subst h
      decide
    · simp only [categorizeCrime, specCategorize, specRules, firstMatch, if_neg h]

/-! ### Claims C4 and C10: hour-window summation and loop termination -/
/-- Claim C4: with an hour window whose bounds lie in `[0, 23]` and a
region whose data carries an `hourCounts` histogram, the summation covers
exactly the inclusive range walked forward from the start hour to the end
hour, wrapping modulo 24 when the end hour is smaller; in particular the
window (22, 3) over the histogram
`{22:1, 23:1, 0:1, 1:1, 2:1, 3:1, 12:5}` sums to 6, not 12. -/
theorem sumIncidents_window_wraps :
    (∀ (s : Store) (nb year ct : String) (sh eh : ℕ) (hh : HourHist),
      sh ≤ 23 → eh ≤ 23 →
      (getNeighborhoodData s nb year ct).hourCounts = some hh →
      sumIncidentsForNeighborhood s nb year ct (some sh) (some eh) =
        some (windowSum (histGet hh) sh eh)) ∧
    windowSum (histGet [(22,1),(23,1),(0,1),(1,1),(2,1),(3,1),(12,5)]) 22 3 = 6 ∧
    windowSum (histGet [(22,1),(23,1),(0,1),(1,1),(2,1),(3,1),(12,5)]) 22 3 ≠ 12 := by
  refine ⟨?_, by decide, by decide⟩
  intro s nb year ct sh eh hh hsh heh hhc
  simp only [sumIncidentsForNeighborhood, hhc]
  exact loopSum_eq_windowSum (histGet hh) sh eh hsh heh 48 (by omega)

/-- Witness for C4 at a concrete store: the store carries the claim's
histogram for region X and the window (22, 3) sums to 6. -/
theorem sumIncidents_window_wraps_witness :
    sumIncidentsForNeighborhood
        [("2024", [("X", ⟨0, 0, 0, 0, 0, 0, 0, 0, 0,
          some [(22,1),(23,1),(0,1),(1,1),(2,1),(3,1),(12,5)]⟩)])]
        "X" "2024" "all" (some 22) (some 3) =
      some (windowSum (histGet [(22,1),(23,1),(0,1),(1,1),(2,1),(3,1),(12,5)]) 22 3) :=
  sumIncidents_window_wraps.1
    [("2024", [("X", ⟨0, 0, 0, 0, 0, 0, 0, 0, 0,
      some [(22,1),(23,1),(0,1),(1,1),(2,1),(3,1),(12,5)]⟩)])]
    "X" "2024" "all" 22 3 [(22,1),(23,1),(0,1),(1,1),(2,1),(3,1),(12,5)]
    (by decide) (by decide) (by decide)

/-- Claim C10: for hour bounds in `[0, 23]` the summation loop terminates
within 24 iterations for every histogram; and the precondition is
essential — with a valid start hour but an end hour outside `[0, 23]` the
modulo-24 walk never reaches the end hour, so the loop never terminates
(no amount of fuel returns a value). -/
theorem hour_window_loop_termination :
    (∀ (g : ℕ → ℕ) (sh eh : ℕ), sh ≤ 23 → eh ≤ 23 →
      (loopSum g eh sh 24).isSome) ∧
    (∀ (g : ℕ → ℕ) (sh eh : ℕ), sh ≤ 23 → 24 ≤ eh →
      ∀ fuel, loopSum g eh sh fuel = none) := by
  constructor
  · intro g sh eh hsh heh
    rw [loopSum_eq_windowSum g sh eh hsh heh 24 (by omega)]
    rfl
  · intro g sh eh hsh heh fuel
    exact loopSum_diverges g eh heh fuel sh hsh

/-- Witness for C10: the loop finishes within 24 steps on the wrapping
window (22, 3), and diverges for end hour 30 from start hour 5. -/
theorem hour_window_loop_termination_witness :
    (loopSum (fun _ => 1) 3 22 24).isSome ∧
    loopSum (fun _ => 1) 30 5 100 = none :=
  ⟨hour_window_loop_termination.1 (fun _ => 1) 22 3 (by decide) (by decide),
   hour_window_loop_termination.2 (fun _ => 1) 5 30 (by decide) (by decide) 100⟩

/-! ### Claim C9: nearest centroid by squared Euclidean distance -/
theorem sqDistE_finite (a b : ℚ) (c : ℚ × ℚ) :
    sqDistE ⟨some a, some b⟩ c = some (sqDist (a, b) c) := rfl

theorem nearestAux_nil_iff (q : ℚ × ℚ) :
    ∀ l : CoordTable, nearestAux q l = none → l = [] := by
  intro l h
  cases l with
  | nil => rfl
  | cons e rest =>
    exfalso
    simp only [nearestAux] at h
    cases hr : nearestAux q rest with
    | none => rw [hr] at h; simp [someBetter] at h
    | some br =>
      rw [hr] at h
      simp only [someBetter] at h
      by_cases hc : br.2 < sqDist q e.2
      · rw [if_pos hc] at h; exact Option.noConfusion h
      · rw [if_neg hc] at h; exact Option.noConfusion h

theorem foldl_nearStep_eq (a b : ℚ) :
    ∀ (l : CoordTable) (acc : Option (String × ℚ)),
      l.foldl (nearStep ⟨some a, some b⟩) acc =
        combineBest acc (nearestAux (a, b) l) := by
  intro l
  induction l with
  | nil => intro acc; cases acc <;> rfl
  | cons e rest ih =>
    intro acc
    rw [List.foldl_cons, ih]
    have hstep : nearStep ⟨some a, some b⟩ acc e =
        combineBest acc (some (e.1, sqDist (a, b) e.2)) := by
      cases acc <;> rfl
    rw [hstep]
    show combineBest (combineBest acc (some (e.1, sqDist (a, b) e.2)))
        (nearestAux (a, b) rest)
      = combineBest acc (someBetter (e.1, sqDist (a, b) e.2) (nearestAux (a, b) rest))
    cases acc with
    | none =>
      cases hr : nearestAux (a, b) rest with
      | none => rfl
      | some br => rfl
    | some ba =>
      cases hr : nearestAux (a, b) rest with
      | none =>
        have hnr : ∀ x : Option (String × ℚ), combineBest x none = x := by
          intro x; cases x <;> rfl
        rw [hnr]
        rfl
      | some br =>
        simp only [someBetter]
        by_cases h1 : sqDist (a, b) e.2 < ba.2
        · by_cases h2 : br.2 < sqDist (a, b) e.2
          · simp only [combineBest, if_pos h1, if_pos h2]
            rw [if_pos (lt_trans h2 h1)]
          · simp only [combineBest, if_pos h1, if_neg h2]
        · by_cases h2 : br.2 < sqDist (a, b) e.2
          · simp only [combineBest, if_neg h1, if_pos h2]
          · simp only [combineBest, if_neg h1, if_neg h2]
            rw [if_neg (not_lt.mpr (le_trans (not_lt.mp h1) (not_lt.mp h2)))]

theorem nearestAux_min (q : ℚ × ℚ) :
    ∀ (l : CoordTable) (be : String × ℚ), nearestAux q l = some be →
      listMinQ (l.map (fun e => sqDist q e.2)) = some be.2 := by
  intro l
  induction l with
  | nil => intro be h; exact Option.noConfusion h
  | cons e rest ih =>
    intro be h
    simp only [nearestAux] at h
    cases hr : nearestAux q rest with
    | none =>
      rw [hr] at h
      simp only [someBetter, Option.some_inj] at h
      have hrest := nearestAux_nil_iff q rest hr
      subst hrest
      subst h
      rfl
    | some br =>
      rw [hr] at h
      have hmin := ih br hr
      simp only [List.map_cons, listMinQ, hmin]
      simp only [someBetter] at h
      by_cases hc : br.2 < sqDist q e.2
      · rw [if_pos hc, Option.some_inj] at h
        subst h
        rw [min_eq_right (le_of_lt hc)]
      · rw [if_neg hc, Option.some_inj] at h
        subst h
        rw [min_eq_left (not_lt.mp hc)]

theorem nearestAux_first (q : ℚ × ℚ) :
    ∀ (l : CoordTable) (be : String × ℚ), nearestAux q l = some be →
      (l.find? (fun e => sqDist q e.2 == be.2)).map (fun e => e.1) = some be.1 := by
  intro l
  induction l with
  | nil => intro be h; exact Option.noConfusion h
  | cons e rest ih =>
    intro be h
    simp only [nearestAux] at h
    cases hr : nearestAux q rest with
    | none =>
      rw [hr] at h
      simp only [someBetter, Option.some_inj] at h
      subst h
      simp [List.find?]
    | some br =>
      rw [hr] at h
      simp only [someBetter] at h
      by_cases hc : br.2 < sqDist q e.2
      · rw [if_pos hc, Option.some_inj] at h
        subst h
        have hne : (sqDist q e.2 == br.2) = false := by
          simp only [beq_eq_false_iff_ne, ne_eq]
          intro hcontra
          rw [hcontra] at hc
          exact lt_irrefl _ hc
        rw [List.find?_cons_of_neg _ (by rw [hne]; exact Bool.false_ne_true)]
        exact ih br hr
      · rw [if_neg hc, Option.some_inj] at h
        subst h
        simp [List.find?]

unseal Rat.mul Rat.add Rat.sub Rat.ofScientific Rat.inv in
/-- Claim C9: `getNearestNeighborhood` returns the region whose centroid
minimizes squared Euclidean distance to the query point over the entire
table, ties resolved in favor of the earliest enumerated entry; in
particular over the 2-region table {A:(0,0), B:(10,10)} it returns A for
(0.1, 0.1) and B for (9.9, 9.9). -/
theorem getNearest_eq_specNearest :
    (∀ (table : CoordTable) (a b : ℚ),
      getNearestNeighborhood table ⟨some a, some b⟩ = specNearest table (a, b)) ∧
    getNearestNeighborhood [("A", 0, 0), ("B", 10, 10)]
      ⟨some (1/10), some (1/10)⟩ = some "A" ∧
    getNearestNeighborhood [("A", 0, 0), ("B", 10, 10)]
      ⟨some (99/10), some (99/10)⟩ = some "B" := by
  refine ⟨?_, by decide, by decide⟩
  intro table a b
  unfold getNearestNeighborhood
  rw [foldl_nearStep_eq a b table none]
  show (nearestAux (a, b) table).map (fun e => e.1) = specNearest table (a, b)
  cases h : nearestAux (a, b) table with
  | none =>
    have := nearestAux_nil_iff (a, b) table h
    subst this
    rfl
  | some be =>
    unfold specNearest
    rw [nearestAux_min (a, b) table be h]
    show some be.1 = (table.find? (fun e => sqDist (a, b) e.2 == be.2)).map (fun e => e.1)
    exact (nearestAux_first (a, b) table be h).symm

/-! ### Claim C5: score normalization and color tiers -/
/-- Integer rounding `(2t + d) / (2d)` agrees with `Math.round(t / d)`
(floor of `t / d + 1/2`) for a positive denominator. -/
theorem jsRound_eq_floor (t d : ℕ) (hd : 0 < d) :
    jsRound t d = ⌊(t : ℚ) / (d : ℚ) + 1/2⌋₊ := by
  have hdq : (d : ℚ) ≠ 0 := Nat.cast_ne_zero.mpr (Nat.pos_iff_ne_zero.mp hd)
  have h1 : (t : ℚ) / (d : ℚ) + 1/2 = ((2 * t + d : ℕ) : ℚ) / ((2 * d : ℕ) : ℚ) := by
    push_cast
    field_simp
    ring
  rw [h1, Nat.floor_div_eq_div]
  rfl

/-- The polyline color equals the color of the spec's 4-tier band of the
score. -/
theorem scoreToColor_eq_tierColor (s : ℕ) :
    scoreToColor s = tierColor (specTier s) := by
  unfold scoreToColor specTier tierColor
  split_ifs <;> rfl

unseal Rat.mul Rat.add Rat.sub Rat.ofScientific Rat.inv in
/-- Claim C5: for every planned route, the score is
`round(total / max(distinctRegionCount, 1))` and the drawn color is the
spec's fixed 4-tier band of the score; in particular total 120 across one
distinct region scores 120, in the second (moderate) tier. -/
theorem planRoute_score_round_and_tier :
    (∀ (table : CoordTable) (s : Store) (start dest : LatLng) (o : RouteOpts)
       (defYear : String) (res : RouteResult),
      planRoute table s start dest o defYear = some res →
      res.score = ⌊(res.total : ℚ) / ((max res.neighborhoods.length 1 : ℕ) : ℚ) + 1/2⌋₊ ∧
      res.color = tierColor (specTier res.score)) ∧
    planRoute [("X", 0, 0)] [("2024", [("X", ⟨120, 0, 0, 0, 0, 0, 0, 0, 0, some []⟩)])]
      ⟨some 0, some 0⟩ ⟨some 0, some 0⟩ ⟨some "2024", none, none, none, some 1⟩ "2024" =
      some ⟨120, 120, "#ffffbf", [("X", 120)], ["X"], []⟩ ∧
    specTier 120 = Tier.moderate := by
  refine ⟨?_, by decide, by decide⟩
  intro table s start dest o defYear res h
  simp only [planRoute] at h
  split at h
  · exact Option.noConfusion h
  · rename_i res0 heq
    split at h
    · split at h
      · exact Option.noConfusion h
      · rw [Option.some_inj] at h
        subst h
        exact ⟨jsRound_eq_floor res0.1 (max res0.2.1.length 1) (by omega),
               scoreToColor_eq_tierColor _⟩
    · rw [Option.some_inj] at h
      subst h
      exact ⟨jsRound_eq_floor res0.1 (max res0.2.1.length 1) (by omega),
             scoreToColor_eq_tierColor _⟩

unseal Rat.mul Rat.add Rat.sub Rat.ofScientific Rat.inv in
/-- Witness for C5 at the concrete one-region route with 120 incidents:
score 120 = round(120 / 1) and the color is the moderate band. -/
theorem planRoute_score_round_and_tier_witness :
    (⟨120, 120, "#ffffbf", [("X", 120)], ["X"], []⟩ : RouteResult).score =
      ⌊(((⟨120, 120, "#ffffbf", [("X", 120)], ["X"], []⟩ : RouteResult).total : ℚ) /
        ((max (⟨120, 120, "#ffffbf", [("X", 120)], ["X"], []⟩ : RouteResult).neighborhoods.length 1 : ℕ) : ℚ) + 1/2)⌋₊ ∧
    (⟨120, 120, "#ffffbf", [("X", 120)], ["X"], []⟩ : RouteResult).color =
      tierColor (specTier (⟨120, 120, "#ffffbf", [("X", 120)], ["X"], []⟩ : RouteResult).score) :=
  planRoute_score_round_and_tier.1
    [("X", 0, 0)] [("2024", [("X", ⟨120, 0, 0, 0, 0, 0, 0, 0, 0, some []⟩)])]
    ⟨some 0, some 0⟩ ⟨some 0, some 0⟩ ⟨some "2024", none, none, none, some 1⟩ "2024"
    ⟨120, 120, "#ffffbf", [("X", 120)], ["X"], []⟩
    (by decide)

/-! ### Shared pipeline lemmas -/
theorem perNbCounts_eq_map (s : Store) (year ct : String) (sh eh : Option ℕ)
    (inc : String → ℕ)
    (hsum : ∀ nb, sumIncidentsForNeighborhood s nb year ct sh eh = some (inc nb)) :
    ∀ l : List String, perNbCounts s year ct sh eh l =
      some (l.map (fun nb => (nb, inc nb))) := by
  intro l
  induction l with
  | nil => rfl
  | cons nb rest ih => simp [perNbCounts, hsum nb, ih]

theorem foldl_add_snd (l : List (String × ℕ)) :
    ∀ acc : ℕ, l.foldl (fun t e => t + e.2) acc = acc + (l.map (fun e => e.2)).sum := by
  induction l with
  | nil => intro acc; simp
  | cons a l ih => intro acc; simp [List.foldl_cons, ih, Nat.add_assoc]

theorem jsRound_zero (d : ℕ) (hd : 0 < d) : jsRound 0 d = 0 := by
  unfold jsRound
  exact Nat.div_eq_of_lt (by omega)

theorem mem_insertDesc (a x : String × ℕ) :
    ∀ l, x ∈ insertDesc a l → x = a ∨ x ∈ l := by
  intro l
  induction l with
  | nil =>
    intro h
    simp [insertDesc] at h
    exact Or.inl h
  | cons b rest ih =>
    intro h
    unfold insertDesc at h
    by_cases hc : b.2 ≤ a.2
    · rw [if_pos hc] at h
      rcases List.mem_cons.mp h with h1 | h2
      · exact Or.inl h1
      · exact Or.inr h2
    · rw [if_neg hc] at h
      rcases List.mem_cons.mp h with h1 | h2
      · exact Or.inr (by rw [h1]; exact List.mem_cons_self b rest)
      · rcases ih h2 with h3 | h4
        · exact Or.inl h3
        · exact Or.inr (List.mem_cons_of_mem b h4)

theorem mem_sortDesc (x : String × ℕ) :
    ∀ l, x ∈ sortDesc l → x ∈ l := by
  intro l
  induction l with
  | nil => intro h; exact absurd h (List.not_mem_nil x)
  | cons b rest ih =>
    intro h
    have : sortDesc (b :: rest) = insertDesc b (sortDesc rest) := rfl
    rw [this] at h
    rcases mem_insertDesc b x (sortDesc rest) h with h1 | h2
    · rw [h1]; exact List.mem_cons_self b rest
    · exact List.mem_cons_of_mem b (ih h2)

/-- When every region's summation yields `some (inc nb)`, the route scorer
returns the distinct touched regions, the per-region object pairing each
region with its count, and their sum as `total`. -/
theorem incidentsAlongRoute_to_map (table : CoordTable) (s : Store)
    (pts : List LatLng) (year ct : String) (sh eh : Option ℕ) (inc : String → ℕ)
    (hsum : ∀ nb, sumIncidentsForNeighborhood s nb year ct sh eh = some (inc nb)) :
    incidentsAlongRoute table s pts year ct sh eh =
      some (((touchedRegions table pts).map inc).sum, touchedRegions table pts,
            (touchedRegions table pts).map (fun nb => (nb, inc nb))) := by
  simp only [incidentsAlongRoute, perNbCounts_eq_map s year ct sh eh inc hsum]
  rw [foldl_add_snd, List.map_map]
  simp only [Nat.zero_add, Option.some_inj]
  rfl

theorem touchedRegions_nodup (table : CoordTable) (pts : List LatLng) :
    (touchedRegions table pts).Nodup := by
  unfold touchedRegions
  suffices h : ∀ (pts : List LatLng) (acc : List String), acc.Nodup →
      (pts.foldl (addTouched table) acc).Nodup from h pts [] List.nodup_nil
  intro pts
  induction pts with
  | nil => intro acc hacc; exact hacc
  | cons p rest ih =>
    intro acc hacc
    rw [List.foldl_cons]
    refine ih (addTouched table acc p) ?_
    unfold addTouched
    cases getNearestNeighborhood table p with
    | none => exact hacc
    | some nb =>
      show (if nb ∈ acc then acc else acc ++ [nb]).Nodup
      by_cases hmem : nb ∈ acc
      · rw [if_pos hmem]; exact hacc
      · rw [if_neg hmem]
        simp [List.nodup_append, hacc, hmem]

/-- Route planning when every region sums to `some (inc nb)`: the planner
returns normally, with the touched-region set, the per-region sum as the
total, the normalized score and the sorted `worst` list. -/
theorem planRoute_of_sum (table : CoordTable) (s : Store) (start dest : LatLng)
    (o : RouteOpts) (defYear : String) (inc : String → ℕ)
    (hsum : ∀ nb, sumIncidentsForNeighborhood s nb (resolveYear o defYear)
      (resolveCrimeType o) o.startHour o.endHour = some (inc nb)) :
    ∃ res, planRoute table s start dest o defYear = some res ∧
      res.neighborhoods = touchedRegions table (sampleLine start dest (resolveSamples o)) ∧
      res.total = (res.neighborhoods.map inc).sum ∧
      res.score = jsRound res.total (max res.neighborhoods.length 1) ∧
      res.worst = (sortDesc (res.neighborhoods.map (fun nb => (nb, inc nb)))).take 3 := by
  have hmain := incidentsAlongRoute_to_map table s
    (sampleLine start dest (resolveSamples o)) (resolveYear o defYear)
    (resolveCrimeType o) o.startHour o.endHour inc hsum
  have halt := incidentsAlongRoute_to_map table s (altSamples start dest)
    (resolveYear o defYear) (resolveCrimeType o) o.startHour o.endHour inc hsum
  by_cases hscore : 100 < jsRound
      ((touchedRegions table (sampleLine start dest (resolveSamples o))).map inc).sum
      (max (touchedRegions table (sampleLine start dest (resolveSamples o))).length 1)
  · refine ⟨⟨((touchedRegions table (sampleLine start dest (resolveSamples o))).map inc).sum,
      jsRound ((touchedRegions table (sampleLine start dest (resolveSamples o))).map inc).sum
        (max (touchedRegions table (sampleLine start dest (resolveSamples o))).length 1),
      scoreToColor (jsRound
        ((touchedRegions table (sampleLine start dest (resolveSamples o))).map inc).sum
        (max (touchedRegions table (sampleLine start dest (resolveSamples o))).length 1)),
      (sortDesc ((touchedRegions table (sampleLine start dest (resolveSamples o))).map
        (fun nb => (nb, inc nb)))).take 3,
      touchedRegions table (sampleLine start dest (resolveSamples o)),
      if ((touchedRegions table (altSamples start dest)).map inc).sum <
          ((touchedRegions table (sampleLine start dest (resolveSamples o))).map inc).sum
        then [(((touchedRegions table (altSamples start dest)).map inc).sum,
               altWaypoint start dest)]
        else []⟩, ?_, rfl, rfl, rfl, rfl⟩
    simp only [planRoute, hmain, halt, if_pos hscore]
  · refine ⟨⟨((touchedRegions table (sampleLine start dest (resolveSamples o))).map inc).sum,
      jsRound ((touchedRegions table (sampleLine start dest (resolveSamples o))).map inc).sum
        (max (touchedRegions table (sampleLine start dest (resolveSamples o))).length 1),
      scoreToColor (jsRound
        ((touchedRegions table (sampleLine start dest (resolveSamples o))).map inc).sum
        (max (touchedRegions table (sampleLine start dest (resolveSamples o))).length 1)),
      (sortDesc ((touchedRegions table (sampleLine start dest (resolveSamples o))).map
        (fun nb => (nb, inc nb)))).take 3,
      touchedRegions table (sampleLine start dest (resolveSamples o)), []⟩,
      ?_, rfl, rfl, rfl, rfl⟩
    simp only [planRoute, hmain, if_neg hscore]

/-! ### Claim C7: reporting period with no aggregate data -/
theorem sumIncidents_missing_year (s : Store) (nb year ct : String)
    (sh eh : Option ℕ) (h : storeFind s year = none) :
    sumIncidentsForNeighborhood s nb year ct sh eh = some 0 := by
  simp only [sumIncidentsForNeighborhood, getNeighborhoodData, h]
  rfl

/-- Claim C7 (amended): a reporting period with no aggregate data yields
`total = 0`, `score = 0` and no exception, but `worst` is not empty — it
still lists the touched regions (up to 3), each with count 0. -/
theorem planRoute_missing_period_zero :
    ∀ (table : CoordTable) (s : Store) (start dest : LatLng) (o : RouteOpts)
      (defYear : String),
      storeFind s (resolveYear o defYear) = none →
      ∃ res, planRoute table s start dest o defYear = some res ∧
        res.total = 0 ∧ res.score = 0 ∧ ∀ w ∈ res.worst, w.2 = 0 := by
  intro table s start dest o defYear h
  obtain ⟨res, hres, hnb, htot, hscore, hworst⟩ :=
    planRoute_of_sum table s start dest o defYear (fun _ => 0)
      (fun nb => sumIncidents_missing_year s nb (resolveYear o defYear)
        (resolveCrimeType o) o.startHour o.endHour h)
  have htot0 : res.total = 0 := by
    rw [htot]
    simp
  refine ⟨res, hres, htot0, ?_, ?_⟩
  · rw [hscore, htot0]
    exact jsRound_zero _ (by omega)
  · intro w hw
    rw [hworst] at hw
    have hw2 := List.take_subset 3 _ hw
    have hw3 := mem_sortDesc w _ hw2
    obtain ⟨nb, _, hnb2⟩ := List.mem_map.mp hw3
    rw [← hnb2]

unseal Rat.mul Rat.add Rat.sub Rat.ofScientific Rat.inv in
/-- Counterexample to C7 as stated: with no data for the period, a route
staying at one point near region X yields `worst = [("X", 0)]`, which is
not the empty list the claim requires. -/
theorem planRoute_missing_period_worst_not_empty :
    planRoute [("X", 0, 0)] [] ⟨some 0, some 0⟩ ⟨some 0, some 0⟩
      ⟨none, none, none, none, some 1⟩ "2024" =
      some ⟨0, 0, "#2b83ba", [("X", 0)], ["X"], []⟩ ∧
    (⟨0, 0, "#2b83ba", [("X", 0)], ["X"], []⟩ : RouteResult).worst ≠ [] := by
  exact ⟨by decide, by decide⟩

/-- Witness for the amended C7 at a concrete query with an empty store. -/
theorem planRoute_missing_period_zero_witness :
    ∃ res, planRoute [("X", 0, 0)] [] ⟨some 0, some 0⟩ ⟨some 0, some 0⟩
        ⟨none, none, none, none, some 1⟩ "2024" = some res ∧
      res.total = 0 ∧ res.score = 0 ∧ ∀ w ∈ res.worst, w.2 = 0 :=
  planRoute_missing_period_zero [("X", 0, 0)] [] ⟨some 0, some 0⟩ ⟨some 0, some 0⟩
    ⟨none, none, none, none, some 1⟩ "2024" (by decide)

/-! ### Claim C6: unresolvable (NaN) coordinates -/
unseal Rat.mul Rat.add Rat.sub Rat.ofScientific Rat.inv in
/-- Claim C6 is violated by the code: with a NaN start latitude every
sample point has NaN coordinates, every centroid distance is NaN and the
`d < bestDist` test always fails, so no region is ever selected; the
planner completes normally with `total = 0`, `score = 0` and no regions —
the very "silently scoring zero" outcome the spec forbids — instead of
failing with an `InvalidInput` condition.  (`parseLatLng` would return
null for such text input, but `planRoute` never invokes it.) -/
theorem planRoute_nan_completes_with_zero_score :
    planRoute neighborhoodCoordinates loadSampleData
      ⟨none, some (-123.1207)⟩ ⟨some 49.2827, some (-123.1207)⟩
      ⟨some "2024", none, none, none, some 1⟩ "2024" =
      some ⟨0, 0, "#2b83ba", [], [], []⟩ := by
  decide

/-! ### Claim C8: single-probe alternative-route search -/
/-- Claim C8: `planRoute` returns alternatives only when the baseline
score exceeds 100, and then at most one candidate — the two-segment route
through the midpoint displaced by +0.01 latitude — included exactly when
its total is strictly below the baseline total; with score at most 100 no
alternative is returned, whatever the detour's total would be. -/
theorem planRoute_alternatives_threshold_gate :
    ∀ (table : CoordTable) (s : Store) (start dest : LatLng) (o : RouteOpts)
      (defYear : String) (res : RouteResult),
      planRoute table s start dest o defYear = some res →
      (res.score ≤ 100 → res.alternatives = []) ∧
      res.alternatives.length ≤ 1 ∧
      (100 < res.score →
        ∃ alt, incidentsAlongRoute table s (altSamples start dest)
            (resolveYear o defYear) (resolveCrimeType o) o.startHour o.endHour =
            some alt ∧
          res.alternatives =
            (if alt.1 < res.total then [(alt.1, altWaypoint start dest)] else [])) := by
  intro table s start dest o defYear res h
  simp only [planRoute] at h
  split at h
  · exact Option.noConfusion h
  · rename_i res0 heq0
    split at h
    · rename_i hscore
      split at h
      · exact Option.noConfusion h
      · rename_i altRes heqAlt
        rw [Option.some_inj] at h
        subst h
        refine ⟨fun hle => absurd hle (not_le.mpr hscore), ?_, fun _ => ⟨altRes, heqAlt, rfl⟩⟩
        by_cases hlt : altRes.1 < res0.1
        · simp [hlt]
        · simp [hlt]
    · rename_i hscore
      rw [Option.some_inj] at h
      subst h
      exact ⟨fun _ => rfl, by simp, fun hgt => absurd hgt hscore⟩

unseal Rat.mul Rat.add Rat.sub Rat.ofScientific Rat.inv in
/-- Witness for C8 at the 120-score route (the gate opens, the probe's
total 120 is not strictly lower, so no candidate is kept). -/
theorem planRoute_alternatives_threshold_gate_witness :
    ((⟨120, 120, "#ffffbf", [("X", 120)], ["X"], []⟩ : RouteResult).score ≤ 100 →
      (⟨120, 120, "#ffffbf", [("X", 120)], ["X"], []⟩ : RouteResult).alternatives = []) ∧
    (⟨120, 120, "#ffffbf", [("X", 120)], ["X"], []⟩ : RouteResult).alternatives.length ≤ 1 ∧
    (100 < (⟨120, 120, "#ffffbf", [("X", 120)], ["X"], []⟩ : RouteResult).score →
      ∃ alt, incidentsAlongRoute [("X", 0, 0)]
          [("2024", [("X", ⟨120, 0, 0, 0, 0, 0, 0, 0, 0, some []⟩)])]
          (altSamples ⟨some 0, some 0⟩ ⟨some 0, some 0⟩)
          (resolveYear ⟨some "2024", none, none, none, some 1⟩ "2024")
          (resolveCrimeType ⟨some "2024", none, none, none, some 1⟩)
          (⟨some "2024", none, none, none, some 1⟩ : RouteOpts).startHour
          (⟨some "2024", none, none, none, some 1⟩ : RouteOpts).endHour = some alt ∧
        (⟨120, 120, "#ffffbf", [("X", 120)], ["X"], []⟩ : RouteResult).alternatives =
          (if alt.1 < (⟨120, 120, "#ffffbf", [("X", 120)], ["X"], []⟩ : RouteResult).total
           then [(alt.1, altWaypoint ⟨some 0, some 0⟩ ⟨some 0, some 0⟩)] else [])) :=
  planRoute_alternatives_threshold_gate
    [("X", 0, 0)] [("2024", [("X", ⟨120, 0, 0, 0, 0, 0, 0, 0, 0, some []⟩)])]
    ⟨some 0, some 0⟩ ⟨some 0, some 0⟩ ⟨some "2024", none, none, none, some 1⟩ "2024"
    ⟨120, 120, "#ffffbf", [("X", 120)], ["X"], []⟩ (by decide)

/-! ### Claim C2: the category partition invariant -/
theorem upsert_forall (P : Agg → Prop) (m : NbMap) (k : String) (f : Agg → Agg)
    (d : Agg) (hm : ∀ e ∈ m, P e.2) (hd : P (f d)) (hf : ∀ g, P g → P (f g)) :
    ∀ e ∈ upsert m k f d, P e.2 := by
  intro e he
  unfold upsert at he
  cases hfind : nbFind m k with
  | some g0 =>
    rw [hfind] at he
    obtain ⟨a, ha, hae⟩ := List.mem_map.mp he
    by_cases hk : (a.1 == k) = true
    · rw [if_pos hk] at hae
      rw [← hae]
      exact hf a.2 (hm a ha)
    · rw [if_neg hk] at hae
      rw [← hae]
      exact hm a ha
  | none =>
    rw [hfind] at he
    rcases List.mem_append.mp he with h1 | h2
    · exact hm e h1
    · rw [List.mem_singleton] at h2
      rw [h2]
      exact hd

theorem processData_forall (P : Agg → Prop)
    (hstep : ∀ r g, P g → P (aggStep r g)) (hinit : ∀ r, P (aggStep r emptyAgg)) :
    ∀ (recs : List CrimeRec) (m : NbMap), (∀ e ∈ m, P e.2) →
      ∀ e ∈ recs.foldl processRecord m, P e.2 := by
  intro recs
  induction recs with
  | nil => intro m hm e he; exact hm e he
  | cons r rest ih =>
    intro m hm e he
    rw [List.foldl_cons] at he
    refine ih (processRecord m r) ?_ e he
    intro e2 he2
    unfold processRecord at he2
    by_cases hskip : skipRec r = true
    · rw [if_pos hskip] at he2; exact hm e2 he2
    · rw [if_neg hskip] at he2
      cases hnb : r.nbhd with
      | none => rw [hnb] at he2; exact hm e2 he2
      | some nb =>
        rw [hnb] at he2
        exact upsert_forall P m nb (aggStep r) emptyAgg hm (hinit r) (hstep r) e2 he2

theorem processDataH_forall (P : Agg → Prop)
    (hstep : ∀ r g, P g → P (aggStepH r g)) (hinit : ∀ r, P (aggStepH r emptyAggH)) :
    ∀ (recs : List CrimeRec) (m : NbMap), (∀ e ∈ m, P e.2) →
      ∀ e ∈ recs.foldl processRecordH m, P e.2 := by
  intro recs
  induction recs with
  | nil => intro m hm e he; exact hm e he
  | cons r rest ih =>
    intro m hm e he
    rw [List.foldl_cons] at he
    refine ih (processRecordH m r) ?_ e he
    intro e2 he2
    unfold processRecordH at he2
    by_cases hskip : skipRec r = true
    · rw [if_pos hskip] at he2; exact hm e2 he2
    · rw [if_neg hskip] at he2
      cases hnb : r.nbhd with
      | none => rw [hnb] at he2; exact hm e2 he2
      | some nb =>
        rw [hnb] at he2
        exact upsert_forall P m nb (aggStepH r) emptyAggH hm (hinit r) (hstep r) e2 he2

/-- One counting step preserves the seven-way partition of `all`: the step
adds 1 to `all` and 1 to exactly one category bucket. -/
theorem aggStep_partition (r : CrimeRec) (g : Agg)
    (h : g.all = g.commercial + g.residential + g.theft + g.vehicle +
      g.person + g.mischief + g.other) :
    (aggStep r g).all = (aggStep r g).commercial + (aggStep r g).residential +
      (aggStep r g).theft + (aggStep r g).vehicle + (aggStep r g).person +
      (aggStep r g).mischief + (aggStep r g).other := by
  unfold aggStep
  cases categorizeCrime r.typ <;> simp [bumpCat] <;> omega

/-- Claim C2 (amended): every aggregate built by `processData` satisfies
`all = commercial + residential + theft + vehicle + person + mischief +
other`, but the sample-data fallback's aggregates do not — there the
seven categories sum to `all - break`, i.e.
`all = seven-category sum + break`. -/
theorem aggregates_partition_except_sample :
    (∀ (recs : List CrimeRec), ∀ e ∈ processData recs,
      (e : String × Agg).2.all = e.2.commercial + e.2.residential + e.2.theft +
        e.2.vehicle + e.2.person + e.2.mischief + e.2.other) ∧
    (∀ ye ∈ loadSampleData, ∀ e ∈ ye.2,
      (e : String × Agg).2.all = e.2.commercial + e.2.residential + e.2.theft +
        e.2.vehicle + e.2.person + e.2.mischief + e.2.other + e.2.brk) := by
  constructor
  · intro recs e he
    exact processData_forall
      (fun g => g.all = g.commercial + g.residential + g.theft + g.vehicle +
        g.person + g.mischief + g.other)
      aggStep_partition
      (fun r => aggStep_partition r emptyAgg (by decide))
      recs [] (by intro e2 he2; exact absurd he2 (List.not_mem_nil e2)) e he
  · decide

/-- Counterexample to C2 as stated: the sample-data aggregate for Central
Business District has `all = 1250` while the seven categories sum to only
1070 (the remaining 180 sit in a `break` bucket outside the seven). -/
theorem sample_aggregate_breaks_partition :
    nbFind ((storeFind loadSampleData "2024").getD []) "Central Business District" =
      some ⟨1250, 0, 0, 520, 380, 170, 0, 0, 180, none⟩ ∧
    ¬ ((1250 : ℕ) = 0 + 0 + 520 + 380 + 170 + 0 + 0) := by
  exact ⟨by decide, by decide⟩

/-- Witness for the amended C2 on the spec's three-record scenario: region
X (all 2 = theft 1 + person 1) satisfies the partition. -/
theorem aggregates_partition_except_sample_witness :
    (("X", (⟨2, 0, 0, 1, 0, 1, 0, 0, 0, none⟩ : Agg)) : String × Agg).2.all =
      (("X", (⟨2, 0, 0, 1, 0, 1, 0, 0, 0, none⟩ : Agg)) : String × Agg).2.commercial +
      (("X", (⟨2, 0, 0, 1, 0, 1, 0, 0, 0, none⟩ : Agg)) : String × Agg).2.residential +
      (("X", (⟨2, 0, 0, 1, 0, 1, 0, 0, 0, none⟩ : Agg)) : String × Agg).2.theft +
      (("X", (⟨2, 0, 0, 1, 0, 1, 0, 0, 0, none⟩ : Agg)) : String × Agg).2.vehicle +
      (("X", (⟨2, 0, 0, 1, 0, 1, 0, 0, 0, none⟩ : Agg)) : String × Agg).2.person +
      (("X", (⟨2, 0, 0, 1, 0, 1, 0, 0, 0, none⟩ : Agg)) : String × Agg).2.mischief +
      (("X", (⟨2, 0, 0, 1, 0, 1, 0, 0, 0, none⟩ : Agg)) : String × Agg).2.other :=
  aggregates_partition_except_sample.1
    [⟨some "X", some "Other Theft", some 10⟩,
     ⟨some "X", some "Homicide", some 22⟩,
     ⟨some "Y", some "Mischief", none⟩]
    ("X", ⟨2, 0, 0, 1, 0, 1, 0, 0, 0, none⟩) (by decide)

/-! ### Claim C1: no hour window uses the region's total incident count -/
/-- Counts stored by `aggStep` leave the histogram field untouched. -/
theorem aggStep_hourCounts (r : CrimeRec) (g : Agg) :
    (aggStep r g).hourCounts = g.hourCounts := by
  unfold aggStep
  cases categorizeCrime r.typ <;> rfl

/-- Every aggregate built by the spec-modelled hour-aware builder carries
an `hourCounts` histogram. -/
theorem processDataWithHours_hourAware (recs : List CrimeRec) (year : String) :
    hourAware [(year, processDataWithHours recs)] := by
  intro e he e2 he2
  rw [List.mem_singleton] at he
  subst he
  refine processDataH_forall (fun g => g.hourCounts.isSome) ?_ ?_ recs []
    (by intro e3 he3; exact absurd he3 (List.not_mem_nil e3)) e2 he2
  · intro r g hg
    unfold aggStepH
    cases r.hour with
    | none =>
      show (aggStep r g).hourCounts.isSome = true
      rw [aggStep_hourCounts]
      exact hg
    | some h =>
      show (if h ≤ 23 then
          { aggStep r g with
            hourCounts := some (histBump ((aggStep r g).hourCounts.getD []) h) }
        else aggStep r g).hourCounts.isSome = true
      by_cases hle : h ≤ 23
      · rw [if_pos hle]
        rfl
      · rw [if_neg hle, aggStep_hourCounts]
        exact hg
  · intro r
    unfold aggStepH
    cases r.hour with
    | none =>
      show (aggStep r emptyAggH).hourCounts.isSome = true
      rw [aggStep_hourCounts]
      rfl
    | some h =>
      show (if h ≤ 23 then
          { aggStep r emptyAggH with
            hourCounts := some (histBump ((aggStep r emptyAggH).hourCounts.getD []) h) }
        else aggStep r emptyAggH).hourCounts.isSome = true
      by_cases hle : h ≤ 23
      · rw [if_pos hle]
        rfl
      · rw [if_neg hle, aggStep_hourCounts]
        rfl

/-- Aggregates reachable through the store lookup carry a histogram when
the store is hour-aware. -/
theorem store_agg_hourCounts_isSome (s : Store) (year nb : String) (g : Agg)
    (hA : hourAware s)
    (hfind : (storeFind s year).bind (fun m => nbFind m nb) = some g) :
    g.hourCounts.isSome := by
  obtain ⟨m, hm, hg⟩ := Option.bind_eq_some.mp hfind
  unfold storeFind at hm
  cases hf1 : s.find? (fun e => e.1 == year) with
  | none => rw [hf1] at hm; exact Option.noConfusion hm
  | some e =>
    rw [hf1] at hm
    rw [Option.map_some', Option.some_inj] at hm
    unfold nbFind at hg
    cases hf2 : m.find? (fun e2 => e2.1 == nb) with
    | none => rw [hf2] at hg; exact Option.noConfusion hg
    | some e2 =>
      rw [hf2] at hg
      rw [Option.map_some', Option.some_inj] at hg
      have hmem := List.mem_of_find?_eq_some hf1
      have hmem2 := List.mem_of_find?_eq_some hf2
      rw [← hm] at hmem2
      have := hA e hmem e2 hmem2
      rw [hg] at this
      exact this

/-- In an hour-aware store, omitting either hour bound makes the summation
return the region's `incidents` value (the count for the requested
category filter), also when the region or the period has no data (both
sides are then 0). -/
theorem sumIncidents_no_window (s : Store) (nb year ct : String)
    (sh eh : Option ℕ) (hA : hourAware s) (hnull : sh = none ∨ eh = none) :
    sumIncidentsForNeighborhood s nb year ct sh eh =
      some (getNeighborhoodData s nb year ct).incidents := by
  have hzero : (getNeighborhoodData s nb year ct).hourCounts = none →
      (getNeighborhoodData s nb year ct).incidents = 0 := by
    unfold getNeighborhoodData
    cases hfind : (storeFind s year).bind (fun m => nbFind m nb) with
    | none => intro _; rfl
    | some g =>
      intro hc
      exfalso
      have hsome := store_agg_hourCounts_isSome s year nb g hA hfind
      have hc2 : g.hourCounts = none := hc
      rw [hc2] at hsome
      exact Bool.noConfusion hsome
  unfold sumIncidentsForNeighborhood
  generalize hnd : getNeighborhoodData s nb year ct = nd
  rw [hnd] at hzero
  obtain ⟨inc, ohc⟩ := nd
  cases ohc with
  | none =>
    have hi : inc = 0 := hzero rfl
    subst hi
    rfl
  | some hh =>
    rcases hnull with hmain | hmain
    · subst hmain
      rfl
    · subst hmain
      cases sh <;> rfl

/-- Claim C1: with no hour window supplied (either bound null), the route
scorer's per-region contribution equals that region's `incidents` value
for the requested period and category filter, and `total` is the sum of
these counts over the distinct touched regions; stated for every
hour-aware store — the shape the spec's data model gives every
`RegionAggregate` (see `processDataWithHours`). -/
theorem no_hour_window_uses_region_totals :
    (∀ (table : CoordTable) (s : Store) (pts : List LatLng) (year ct : String)
       (sh eh : Option ℕ), hourAware s → (sh = none ∨ eh = none) →
      incidentsAlongRoute table s pts year ct sh eh =
        some (((touchedRegions table pts).map
            (fun nb => (getNeighborhoodData s nb year ct).incidents)).sum,
          touchedRegions table pts,
          (touchedRegions table pts).map
            (fun nb => (nb, (getNeighborhoodData s nb year ct).incidents)))) ∧
    (∀ (table : CoordTable) (s : Store) (start dest : LatLng) (o : RouteOpts)
       (defYear : String), hourAware s → (o.startHour = none ∨ o.endHour = none) →
      ∃ res, planRoute table s start dest o defYear = some res ∧
        res.neighborhoods = touchedRegions table (sampleLine start dest (resolveSamples o)) ∧
        res.neighborhoods.Nodup ∧
        res.total = (res.neighborhoods.map
          (fun nb => (getNeighborhoodData s nb (resolveYear o defYear)
            (resolveCrimeType o)).incidents)).sum) := by
  constructor
  · intro table s pts year ct sh eh hA hnull
    exact incidentsAlongRoute_to_map table s pts year ct sh eh _
      (fun nb => sumIncidents_no_window s nb year ct sh eh hA hnull)
  · intro table s start dest o defYear hA hnull
    obtain ⟨res, h1, h2, h3, _, _⟩ := planRoute_of_sum table s start dest o defYear _
      (fun nb => sumIncidents_no_window s nb (resolveYear o defYear)
        (resolveCrimeType o) o.startHour o.endHour hA hnull)
    refine ⟨res, h1, h2, ?_, h3⟩
    rw [h2]
    exact touchedRegions_nodup table _

unseal Rat.mul Rat.add Rat.sub Rat.ofScientific Rat.inv in
/-- Witness for C1 on the spec scenario store built by the hour-aware
aggregator: with no hour window, each touched region contributes its
`incidents` value and the total is their sum. -/
theorem no_hour_window_uses_region_totals_witness :
    incidentsAlongRoute [("X", 0, 0), ("Y", 10, 10)]
      [("2024", processDataWithHours
        [⟨some "X", some "Other Theft", some 10⟩,
         ⟨some "X", some "Homicide", some 22⟩,
         ⟨some "Y", some "Mischief", none⟩])]
      [⟨some 0, some 0⟩, ⟨some 10, some 10⟩] "2024" "all" none none =
      some (3, ["X", "Y"], [("X", 2), ("Y", 1)]) := by
  exact no_hour_window_uses_region_totals.1
    [("X", 0, 0), ("Y", 10, 10)]
    [("2024", processDataWithHours
      [⟨some "X", some "Other Theft", some 10⟩,
       ⟨some "X", some "Homicide", some 22⟩,
       ⟨some "Y", some "Mischief", none⟩])]
    [⟨some 0, some 0⟩, ⟨some 10, some 10⟩] "2024" "all" none none
    (by decide) (Or.inl rfl)

end ObserVan
